import Mathlib

/-!
Shallow embedding of haproxy's HTTP client engine (src/http_client.c).

The response demultiplexer httpclient_applet_io_handler is modelled as a
state machine over HState (the appctx st0 values HTTPCLIENT_S_*).  The
inbound response channel carries typed HTX blocks plus the end-of-message
flag (HTX_FL_EOM); external collaborators that are not part of this
repository's files (htx block iteration, co_htx_remove_blk, b_xfer,
istdup, the allocator) are modelled from the spec: block removal removes
the block from the list, istdup and the allocator are total, b_xfer moves
the requested bytes.  Callbacks are recorded as a trace of CB events
(every ops slot modelled as registered).
-/

/-- Block types of the structured (HTX) response channel: a response start
line (with the HTX_SL_F_IS_RESP flag), a header, the end-of-headers marker
and a data block carrying payload bytes. -/
inductive HtxBlk where
  | res_sl (status : Nat) (vsn reason : String) (is_resp : Bool)
  | hdr (n v : String)
  | eoh
  | data (payload : List Nat)
deriving DecidableEq

/-- Inbound response channel: the HTX block sequence, the HTX_FL_EOM flag,
and whether a half-close has been signalled (the io handler's check of
CF_SHUTR/CF_SHUTR_NOW on the request channel or CF_SHUTW/CF_SHUTW_NOW on
the response channel). -/
structure Channel where
  blocks : List HtxBlk
  eom : Bool
  shut : Bool
deriving DecidableEq

/-- Model of b_data(res buffer) as a Bool: the buffer still holds the htx
while it carries blocks or the not-yet-consumed end-of-message flag. -/
def b_data_res (c : Channel) : Bool := !c.blocks.isEmpty || c.eom

/-- Model of htx_is_empty: no blocks left. -/
def htx_is_empty (c : Channel) : Bool := c.blocks.isEmpty

/-- The structured response store hc res: status line fields, the extracted
header list (with a flag telling whether the terminating sentinel was
actually written, i.e. whether the end-of-headers marker had been seen when
the copy was made), the raw body buffer contents and its fixed capacity
(b_size of hc res buf). -/
structure HCRes where
  status : Nat
  vsn : String
  reason : String
  hdrs : Option (List (String × String) × Bool)
  buf : List Nat
  cap : Nat
deriving DecidableEq

/-- The client handle fields the io handler touches: the response store and
the generated request buffer bytes. -/
structure Httpclient where
  res : HCRes
  req_buf : List Nat
deriving DecidableEq

/-- Callback events, in the order the ops slots fire them. -/
inductive CB where
  | res_stline
  | res_headers
  | res_payload
  | res_end
deriving DecidableEq

/-- The io handler states (appctx st0): HTTPCLIENT_S_REQ,
HTTPCLIENT_S_RES_STLINE, HTTPCLIENT_S_RES_HDR, HTTPCLIENT_S_RES_BODY,
HTTPCLIENT_S_RES_END. -/
inductive HState where
  | REQ
  | RES_STLINE
  | RES_HDR
  | RES_BODY
  | RES_END
deriving DecidableEq

/-- How one invocation of the io handler returned: through the more label
without a shutdown (suspension for lack of inbound data), through the
process_data label (suspension for lack of room in the raw body buffer),
or through the end label (res_end fired, both directions shut). -/
inductive Exit where
  | ret_more
  | ret_room
  | ended
deriving DecidableEq

/-- Where a switch case hands control next: break out of the switch and
loop (cont), goto more, goto process_data (room), or goto end (finish). -/
inductive CtlFlow where
  | cont
  | more
  | room
  | finish
deriving DecidableEq

/-- Result of the header staging loop of the RES_HDR case: the staged
(name, value) pairs, whether the end-of-headers block was found (only then
is the sentinel entry written), the blocks left in the channel (header and
end-of-headers blocks are removed as they are read, every other block is
skipped and kept), and the staging-array indices written (each header block
writes hdrs[hdr_num], the end-of-headers block writes the sentinel at
hdrs[hdr_num]); the C array is sized global.tune.max_http_hdr and the loop
checks no bound, so the indices themselves record the memory accesses. -/
structure HdrScanOut where
  staged : List (String × String)
  eoh_found : Bool
  remaining : List HtxBlk
  writes : List Nat
deriving DecidableEq

/-- The RES_HDR staging loop (the for loop over htx blocks). -/
def hdrScan : List HtxBlk → Nat → List (String × String) → HdrScanOut
  | [], _, acc => { staged := acc, eoh_found := false, remaining := [], writes := [] }
  | HtxBlk.eoh :: rest, hdr_num, acc =>
      { staged := acc, eoh_found := true, remaining := rest, writes := [hdr_num] }
  | HtxBlk.hdr n v :: rest, hdr_num, acc =>
      let r := hdrScan rest (hdr_num + 1) (acc ++ [(n, v)])
      { staged := r.staged, eoh_found := r.eoh_found, remaining := r.remaining,
        writes := hdr_num :: r.writes }
  | HtxBlk.res_sl s vn re ir :: rest, hdr_num, acc =>
      let r := hdrScan rest hdr_num acc
      { staged := r.staged, eoh_found := r.eoh_found,
        remaining := HtxBlk.res_sl s vn re ir :: r.remaining, writes := r.writes }
  | HtxBlk.data p :: rest, hdr_num, acc =>
      let r := hdrScan rest hdr_num acc
      { staged := r.staged, eoh_found := r.eoh_found,
        remaining := HtxBlk.data p :: r.remaining, writes := r.writes }

/-- Whether every staging-array access of the RES_HDR loop on these blocks
stays below the configured maximum header count. -/
def hdrWritesInBounds (tune_max_http_hdr : Nat) (blocks : List HtxBlk) : Bool :=
  (hdrScan blocks 0 []).writes.all (fun i => decide (i < tune_max_http_hdr))

/-- Result of the RES_BODY decapsulation loop: the raw body buffer after the
copies, the res_payload events fired (one per data block copied), the blocks
left in the channel, and whether the loop stopped on a data block larger
than the remaining room (goto process_data). -/
structure BodyScanOut where
  buf : List Nat
  evs : List CB
  remaining : List HtxBlk
  room_blocked : Bool
deriving DecidableEq

/-- The RES_BODY loop: a data block whose payload does not fit in the
remaining room suspends the copy (nothing of it is copied); a data block
that fits is appended whole to the raw body buffer, removed, and fires
res_payload; every non-data block is removed silently. -/
def bodyScan (cap : Nat) : List HtxBlk → List Nat → BodyScanOut
  | [], buf => { buf := buf, evs := [], remaining := [], room_blocked := false }
  | HtxBlk.data v :: rest, buf =>
      if cap - buf.length < v.length then
        { buf := buf, evs := [], remaining := HtxBlk.data v :: rest, room_blocked := true }
      else
        let r := bodyScan cap rest (buf ++ v)
        { buf := r.buf, evs := CB.res_payload :: r.evs, remaining := r.remaining,
          room_blocked := r.room_blocked }
  | _ :: rest, buf => bodyScan cap rest buf

/-- State after one switch case of the io handler ran. -/
structure SwitchOut where
  st0 : HState
  hc : Httpclient
  res : Channel
  req_out : List Nat
  evs : List CB
  flow : CtlFlow
deriving DecidableEq

/-- One switch case of httpclient_applet_io_handler, translated case by
case from the C: REQ pushes the generated request into the outbound channel
and suspends in RES_STLINE; RES_STLINE waits for a response start line at
the channel front, copies it, removes it and fires res_stline; RES_HDR runs
the staging loop, publishes the staged list (when nonempty) and fires
res_headers; RES_BODY runs the decapsulation loop; RES_END goes to the end
label. -/
def switchStep (st0 : HState) (hc : Httpclient) (res : Channel) (req_out : List Nat) :
    SwitchOut :=
  match st0 with
  | HState.REQ =>
      { st0 := HState.RES_STLINE
        hc := { hc with req_buf := [] }
        res := res
        req_out := req_out ++ hc.req_buf
        evs := []
        flow := CtlFlow.more }
  | HState.RES_STLINE =>
      if !b_data_res res then
        { st0 := HState.RES_STLINE, hc := hc, res := res, req_out := req_out,
          evs := [], flow := CtlFlow.more }
      else
        match res.blocks with
        | HtxBlk.res_sl status vsn reason is_resp :: rest =>
            if is_resp then
              let hc1 := { hc with
                res := { hc.res with status := status, vsn := vsn, reason := reason } }
              let res1 := { res with blocks := rest }
              { st0 := if htx_is_empty res1 && res1.eom then HState.RES_END
                       else HState.RES_HDR
                hc := hc1, res := res1, req_out := req_out,
                evs := [CB.res_stline], flow := CtlFlow.cont }
            else
              { st0 := HState.RES_STLINE, hc := hc, res := res, req_out := req_out,
                evs := [], flow := CtlFlow.more }
        | _ =>
            { st0 := HState.RES_STLINE, hc := hc, res := res, req_out := req_out,
              evs := [], flow := CtlFlow.more }
  | HState.RES_HDR =>
      if !b_data_res res then
        { st0 := HState.RES_HDR, hc := hc, res := res, req_out := req_out,
          evs := [], flow := CtlFlow.more }
      else
        let r := hdrScan res.blocks 0 []
        let res1 := { res with blocks := r.remaining }
        { st0 := if htx_is_empty res1 && res1.eom then HState.RES_END
                 else HState.RES_BODY
          hc := if r.staged.length != 0 then
                  { hc with res := { hc.res with hdrs := some (r.staged, r.eoh_found) } }
                else hc
          res := res1
          req_out := req_out
          evs := if r.staged.length != 0 then [CB.res_headers] else []
          flow := CtlFlow.cont }
  | HState.RES_BODY =>
      if htx_is_empty res then
        { st0 := HState.RES_BODY, hc := hc, res := res, req_out := req_out,
          evs := [], flow := CtlFlow.more }
      else if hc.res.buf.length == hc.res.cap then
        { st0 := HState.RES_BODY, hc := hc, res := res, req_out := req_out,
          evs := [], flow := CtlFlow.room }
      else
        let r := bodyScan hc.res.cap res.blocks hc.res.buf
        let hc1 := { hc with res := { hc.res with buf := r.buf } }
        let res1 := { res with blocks := r.remaining }
        if r.room_blocked then
          { st0 := HState.RES_BODY, hc := hc1, res := res1, req_out := req_out,
            evs := r.evs, flow := CtlFlow.room }
        else if !res1.eom then
          { st0 := HState.RES_BODY, hc := hc1, res := res1, req_out := req_out,
            evs := r.evs, flow := CtlFlow.more }
        else
          { st0 := HState.RES_END, hc := hc1, res := res1, req_out := req_out,
            evs := r.evs, flow := CtlFlow.cont }
  | HState.RES_END =>
      { st0 := HState.RES_END, hc := hc, res := res, req_out := req_out,
        evs := [], flow := CtlFlow.finish }

/-- Result of one whole invocation of the io handler. -/
structure RunOut where
  st0 : HState
  hc : Httpclient
  res : Channel
  req_out : List Nat
  evs : List CB
  exit : Exit
deriving DecidableEq

/-- The end label: fire res_end (the ops slot modelled as registered), then
si_shutw and si_shutr.  Note the C does not change st0 there and keeps no
flag recording that res_end already fired. -/
def endLabel (st0 : HState) (hc : Httpclient) (res : Channel) (req_out : List Nat)
    (evs : List CB) : RunOut :=
  { st0 := st0, hc := hc, res := res, req_out := req_out,
    evs := evs ++ [CB.res_end], exit := Exit.ended }

/-- The more label: si_rx_room_blk, then goto end if already in RES_END or
if a half-close was signalled, else return to the scheduler. -/
def moreLabel (st0 : HState) (hc : Httpclient) (res : Channel) (req_out : List Nat)
    (evs : List CB) : RunOut :=
  if st0 = HState.RES_END then endLabel st0 hc res req_out evs
  else if res.shut then endLabel st0 hc res req_out evs
  else { st0 := st0, hc := hc, res := res, req_out := req_out, evs := evs,
         exit := Exit.ret_more }

/-- The while(1) loop around the switch.  Fuel bounds the iteration count;
five is enough because every cont strictly advances the state order
REQ, RES_STLINE, RES_HDR, RES_BODY, RES_END and every other flow leaves
the loop. -/
def ioLoop : Nat → HState → Httpclient → Channel → List Nat → List CB → RunOut
  | 0, st0, hc, res, req_out, evs =>
      { st0 := st0, hc := hc, res := res, req_out := req_out, evs := evs,
        exit := Exit.ret_more }
  | fuel + 1, st0, hc, res, req_out, evs =>
      let s := switchStep st0 hc res req_out
      match s.flow with
      | CtlFlow.cont => ioLoop fuel s.st0 s.hc s.res s.req_out (evs ++ s.evs)
      | CtlFlow.more => moreLabel s.st0 s.hc s.res s.req_out (evs ++ s.evs)
      | CtlFlow.room =>
          { st0 := s.st0, hc := s.hc, res := s.res, req_out := s.req_out,
            evs := evs ++ s.evs, exit := Exit.ret_room }
      | CtlFlow.finish => endLabel s.st0 s.hc s.res s.req_out (evs ++ s.evs)

/-- One invocation of httpclient_applet_io_handler. -/
def httpclient_applet_io_handler (st0 : HState) (hc : Httpclient) (res : Channel)
    (req_out : List Nat) : RunOut :=
  ioLoop 5 st0 hc res req_out []

/-- Total payload bytes carried by the data blocks of a block list. -/
def totalData : List HtxBlk → Nat
  | [] => 0
  | HtxBlk.data v :: rest => v.length + totalData rest
  | _ :: rest => totalData rest

/-- One unit the transport may deliver: an HTX block, or the setting of the
end-of-message flag. -/
inductive FeedItem where
  | blk (b : HtxBlk)
  | eom_mark
deriving DecidableEq

/-- Deliver a batch of items into the response channel: blocks are appended
in order, the end-of-message flag is set if the batch carries the marker. -/
def deliver (c : Channel) (chunk : List FeedItem) : Channel :=
  { blocks := c.blocks ++ chunk.filterMap
      (fun i => match i with | FeedItem.blk b => some b | FeedItem.eom_mark => none)
    eom := c.eom || chunk.any
      (fun i => match i with | FeedItem.eom_mark => true | _ => false)
    shut := c.shut }

/-- The driver state threaded across resumption calls: the persisted st0,
the handle, the channel, the outbound request bytes and the accumulated
callback trace. -/
structure Drive where
  st0 : HState
  hc : Httpclient
  res : Channel
  req_out : List Nat
  trace : List CB
deriving DecidableEq

/-- Deliver one batch, then run one invocation of the io handler. -/
def driveStep (d : Drive) (chunk : List FeedItem) : Drive :=
  let res1 := deliver d.res chunk
  let r := httpclient_applet_io_handler d.st0 d.hc res1 d.req_out
  { st0 := r.st0, hc := r.hc, res := r.res, req_out := r.req_out,
    trace := d.trace ++ r.evs }

/-- Run the driver over a list of delivery batches, one invocation each. -/
def driveRun (d : Drive) : List (List FeedItem) → Drive
  | [] => d
  | c :: cs => driveRun (driveStep d c) cs

/-- Split an item sequence into consecutive batches: cut i decides whether a
resumption boundary falls between item i and item i+1, so every way the
input can be fragmented across resumption calls is some cut vector. -/
def splitByCuts : List FeedItem → List Bool → List (List FeedItem)
  | [], _ => []
  | x :: xs, [] => [x :: xs]
  | x :: xs, c :: cs =>
      if c then [x] :: splitByCuts xs cs
      else
        match splitByCuts xs cs with
        | [] => [[x]]
        | h :: t => (x :: h) :: t

/-- A fresh handle as httpclient_new leaves it: zeroed response store, a
raw body buffer of one default transport buffer (16384 bytes), and a
generated request pending in the request buffer. -/
def hc0 : Httpclient :=
  { res := { status := 0, vsn := "", reason := "", hdrs := none, buf := [], cap := 16384 }
    req_buf := [71, 69, 84] }

/-- An idle channel. -/
def ch0 : Channel := { blocks := [], eom := false, shut := false }

/-- Driver state right after httpclient_start: st0 = HTTPCLIENT_S_REQ. -/
def d0 : Drive := { st0 := HState.REQ, hc := hc0, res := ch0, req_out := [], trace := [] }

/-- Driver state after the initial wake-up invocation that start schedules:
the request was pushed out and the machine suspended in RES_STLINE. -/
def d1 : Drive := driveStep d0 []

/-- The response of claim C1: a 200 OK start line, two header blocks, the
end-of-headers marker, two data blocks, and the end-of-message marker. -/
def c1Items : List FeedItem :=
  [FeedItem.blk (HtxBlk.res_sl 200 "HTTP/1.1" "OK" true),
   FeedItem.blk (HtxBlk.hdr "h1" "v1"),
   FeedItem.blk (HtxBlk.hdr "h2" "v2"),
   FeedItem.blk HtxBlk.eoh,
   FeedItem.blk (HtxBlk.data [1, 2]),
   FeedItem.blk (HtxBlk.data [3, 4]),
   FeedItem.eom_mark]

/-- The callback sequence claim C1 expects. -/
def c1Target : List CB :=
  [CB.res_stline, CB.res_headers, CB.res_payload, CB.res_payload, CB.res_end]

/-- Run the C1 response against a fragmentation given by six cut bits. -/
def c1Trace (c1 c2 c3 c4 c5 c6 : Bool) : List CB :=
  (driveRun d1 (splitByCuts c1Items [c1, c2, c3, c4, c5, c6])).trace

/-- HTTP method enumeration (enum http_meth_t); every value from OTHER on
is outside the known set httpclient_req_gen accepts. -/
inductive HttpMeth where
  | NONE
  | OPTIONS
  | GET
  | HEAD
  | POST
  | PUT
  | DELETE
  | TRACE
  | CONNECT
  | OTHER
deriving DecidableEq

/-- Modelled from the spec: the registered method strings of the
http_known_methods table (http.c is not among the repository files); only
entries below OTHER are ever read by httpclient_req_gen. -/
def http_known_methods : HttpMeth → String
  | HttpMeth.NONE => ""
  | HttpMeth.OPTIONS => "OPTIONS"
  | HttpMeth.GET => "GET"
  | HttpMeth.HEAD => "HEAD"
  | HttpMeth.POST => "POST"
  | HttpMeth.PUT => "PUT"
  | HttpMeth.DELETE => "DELETE"
  | HttpMeth.TRACE => "TRACE"
  | HttpMeth.CONNECT => "CONNECT"
  | HttpMeth.OTHER => ""

/-- The start-line flags httpclient_req_gen sets: HTX_SL_F_VER_11,
HTX_SL_F_BODYLESS, HTX_SL_F_XFER_LEN, HTX_SL_F_NORMALIZED_URI,
HTX_SL_F_HAS_SCHM. -/
structure SLFlags where
  ver_11 : Bool
  bodyless : Bool
  xfer_len : Bool
  normalized_uri : Bool
  has_schm : Bool
deriving DecidableEq

/-- Units of the structured request buffer: the request start line (flags,
method, method string, target, version), a header, the end-of-headers
marker; the end-of-message marker is the buffer's EOM flag. -/
inductive ReqItem where
  | req_sl (flags : SLFlags) (meth : HttpMeth) (meth_str url vsn : String)
  | header (n v : String)
  | eoh
deriving DecidableEq

/-- Flags value used by httpclient_req_gen. -/
def reqFlags : SLFlags :=
  { ver_11 := true, bodyless := true, xfer_len := true, normalized_uri := true,
    has_schm := true }

/-- Drop a scheme the client supports (http:// or https://) from the front
of the URL characters. -/
def afterScheme : List Char → Option (List Char)
  | 'h' :: 't' :: 't' :: 'p' :: ':' :: '/' :: '/' :: rest => some rest
  | 'h' :: 't' :: 't' :: 'p' :: 's' :: ':' :: '/' :: '/' :: rest => some rest
  | _ => none

/-- Modelled from the spec: the authority component of an absolute URL
(the parsing helpers of http.c are not among the repository files) — the
host part between the scheme and the first slash; none when the URL is not
absolute or the authority is empty (host derivation fails). -/
def authorityOf (url : String) : Option String :=
  match afterScheme url.data with
  | none => none
  | some rest =>
      let auth := rest.takeWhile (fun c => c != '/')
      if auth.isEmpty then none else some (String.mk auth)

/-- Oracle for the fallible external buffer services httpclient_req_gen
calls and checks: whether htx_from_buf yields a usable htx, whether
htx_add_stline finds room for the start line, and whether the header the
host update inserts finds room. -/
structure HtxEnv where
  from_buf_ok : Bool
  stline_ok : Bool
  host_room_ok : Bool
deriving DecidableEq

/-- Nonzero error bits (errors.h is not among the repository files; the
exact values are immaterial, the claims only need the code nonzero). -/
def ERR_ALERT : Nat := 4

/-- Second error bit or-ed into the return of a failed generation. -/
def ERR_ABORT : Nat := 16

/-- Modelled from the spec: http_update_host (http_htx.c is not among the
repository files) derives the Host value from the URL authority and writes
it exactly once into the message as built so far — updating an existing
Host header, else inserting one; it fails when the authority cannot be
derived or the insertion finds no room. -/
def http_update_host (items : List ReqItem) (url : String) (room_ok : Bool) :
    Option (List ReqItem) :=
  match authorityOf url with
  | none => none
  | some a =>
      if !room_ok then none
      else if items.any (fun i => match i with
        | ReqItem.header n _ => n == "Host"
        | _ => false) then
        some (items.map (fun i => match i with
          | ReqItem.header n v => if n == "Host" then ReqItem.header n a
                                  else ReqItem.header n v
          | other => other))
      else some (items ++ [ReqItem.header "Host" a])

/-- Result of httpclient_req_gen: the return code (0 on success) and the
request buffer content (on error the C leaves the buffer in an unspecified
state; the model clears it). -/
structure ReqGenOut where
  ret : Nat
  items : List ReqItem
  eom : Bool
deriving DecidableEq

/-- Generation failure: err_code |= ERR_ALERT | ERR_ABORT. -/
def reqGenFail : ReqGenOut := { ret := ERR_ALERT + ERR_ABORT, items := [], eom := false }

/-- httpclient_req_gen: reject a method outside the known set, initialize
the structured buffer, append the start line (method, URL as target,
version HTTP/1.1, the five flags), run the host update, append the supplied
headers followed by the end-of-headers marker (htx_add_all_headers), and
set the end-of-message flag. -/
def httpclient_req_gen (env : HtxEnv) (url : String) (meth : HttpMeth)
    (hdrs : List (String × String)) : ReqGenOut :=
  if meth = HttpMeth.OTHER then reqGenFail
  else if !env.from_buf_ok then reqGenFail
  else if !env.stline_ok then reqGenFail
  else
    let items0 := [ReqItem.req_sl reqFlags meth (http_known_methods meth) url "HTTP/1.1"]
    match http_update_host items0 url env.host_room_ok with
    | none => reqGenFail
    | some items1 =>
        { ret := 0
          items := items1 ++ hdrs.map (fun h => ReqItem.header h.1 h.2) ++ [ReqItem.eoh]
          eom := true }

/-- Number of Host headers in a request buffer. -/
def countHost (items : List ReqItem) : Nat :=
  items.countP (fun i => match i with
    | ReqItem.header n _ => n == "Host"
    | _ => false)

/-- Result of httpclient_res_xfer: the byte count returned, the handle
after the drain, the destination after the append, and whether the applet
was woken. -/
structure XferOut where
  ret : Nat
  hc : Httpclient
  dst : List Nat
  woke : Bool
deriving DecidableEq

/-- httpclient_res_xfer: move MIN(1024, b_data(hc res buf)) bytes from the
raw body buffer to the destination (b_xfer modelled from the spec: the raw
byte transfer moves the requested count), then wake the applet when the
buffer emptied and the execution reference hc appctx is still live. -/
def httpclient_res_xfer (hc : Httpclient) (appctx_live : Bool) (dst : List Nat) :
    XferOut :=
  let n := min 1024 hc.res.buf.length
  let buf1 := hc.res.buf.drop n
  { ret := n
    hc := { hc with res := { hc.res with buf := buf1 } }
    dst := dst ++ hc.res.buf.take n
    woke := buf1.isEmpty && appctx_live }

/-- Release actions of httpclient_destroy. -/
inductive DestroyEffect where
  | free_req_buf
  | free_res_buf
  | free_handle
deriving DecidableEq

/-- httpclient_destroy: a null handle returns at once with no release;
otherwise both buffers and the handle are freed. -/
def httpclient_destroy : Option Httpclient → List DestroyEffect
  | none => []
  | some _ => [DestroyEffect.free_req_buf, DestroyEffect.free_res_buf,
               DestroyEffect.free_handle]

/-- First invocation of the io handler in the terminal RES_END state. -/
def c2run1 : RunOut := httpclient_applet_io_handler HState.RES_END hc0 ch0 []

/-- A later invocation after the terminal state was already handled. -/
def c2run2 : RunOut :=
  httpclient_applet_io_handler c2run1.st0 c2run1.hc c2run1.res c2run1.req_out

/-- A handle whose raw body buffer (capacity 4) already holds one byte, so
only three bytes of room remain. -/
def c3hc : Httpclient :=
  { res := { status := 200, vsn := "HTTP/1.1", reason := "OK", hdrs := none,
             buf := [9], cap := 4 }
    req_buf := [] }

/-- A channel holding one four-byte data block and the end-of-message flag. -/
def c3ch : Channel := { blocks := [HtxBlk.data [5, 6, 7, 8]], eom := true, shut := false }

/-- Body-state invocation with room for only part of the pending block. -/
def c3run1 : RunOut := httpclient_applet_io_handler HState.RES_BODY c3hc c3ch []

/-- The transfer gate drains the raw body buffer between the invocations. -/
def c3drain : XferOut := httpclient_res_xfer c3run1.hc true []

/-- The resumption invocation after the drain. -/
def c3run2 : RunOut :=
  httpclient_applet_io_handler c3run1.st0 c3drain.hc c3run1.res c3run1.req_out

/-- Headers-state invocation whose channel holds one header block and no
end-of-headers marker yet. -/
def c4run : RunOut :=
  httpclient_applet_io_handler HState.RES_HDR hc0
    { blocks := [HtxBlk.hdr "a" "b"], eom := false, shut := false } []

/-- A response carrying three header blocks, more than a configured maximum
header count of two. -/
def c5blocks : List HtxBlk :=
  [HtxBlk.hdr "n1" "v1", HtxBlk.hdr "n2" "v2", HtxBlk.hdr "n3" "v3", HtxBlk.eoh]

/-- A channel with one data block for the C6 witness. -/
def c6ch : Channel := { blocks := [HtxBlk.data [1, 2, 3]], eom := true, shut := false }

/-- An all-services-succeed oracle. -/
def c7env : HtxEnv := { from_buf_ok := true, stline_ok := true, host_room_ok := true }

/-- Generation with a supplied header list that already contains Host. -/
def c7dup : ReqGenOut :=
  httpclient_req_gen c7env "http://example.com/" HttpMeth.GET [("Host", "example.org")]

/-- A handle whose raw body buffer (capacity 2) holds one byte. -/
def c9hc : Httpclient :=
  { res := { status := 200, vsn := "HTTP/1.1", reason := "OK", hdrs := none,
             buf := [1], cap := 2 }
    req_buf := [] }

/-- A channel with a pending two-byte data block and a half-close signal. -/
def c9ch : Channel := { blocks := [HtxBlk.data [5, 6]], eom := false, shut := true }

/-- Body-state invocation under half-close that stalls on buffer room. -/
def c9run : RunOut := httpclient_applet_io_handler HState.RES_BODY c9hc c9ch []

/-- The body loop moves bytes, never invents or drops them: buffer growth
exactly matches the payload leaving the channel. -/
theorem bodyScan_conserve (cap : Nat) (blocks : List HtxBlk) :
    ∀ buf : List Nat,
      (bodyScan cap blocks buf).buf.length + totalData (bodyScan cap blocks buf).remaining
        = buf.length + totalData blocks := by
  induction blocks with
  | nil => intro buf; simp [bodyScan, totalData]
  | cons b rest ih =>
      intro buf
      cases b with
      | data v =>
          by_cases h : cap - buf.length < v.length
          · simp [bodyScan, h, totalData]
          · have := ih (buf ++ v)
            simp [bodyScan, h, totalData] at this ⊢
            omega
      | res_sl s vn re ir => simpa [bodyScan, totalData] using ih buf
      | hdr n v => simpa [bodyScan, totalData] using ih buf
      | eoh => simpa [bodyScan, totalData] using ih buf

/-- The body loop never writes past the buffer capacity. -/
theorem bodyScan_le (cap : Nat) (blocks : List HtxBlk) :
    ∀ buf : List Nat, buf.length ≤ cap → (bodyScan cap blocks buf).buf.length ≤ cap := by
  induction blocks with
  | nil => intro buf h; simpa [bodyScan] using h
  | cons b rest ih =>
      intro buf h
      cases b with
      | data v =>
          by_cases hr : cap - buf.length < v.length
          · simpa [bodyScan, hr] using h
          · have hlen : (buf ++ v).length ≤ cap := by simp; omega
            simpa [bodyScan, hr] using ih (buf ++ v) hlen
      | res_sl s vn re ir => simpa [bodyScan] using ih buf h
      | hdr n v => simpa [bodyScan] using ih buf h
      | eoh => simpa [bodyScan] using ih buf h

/-- The body loop only appends to the buffer. -/
theorem bodyScan_extends (cap : Nat) (blocks : List HtxBlk) :
    ∀ buf : List Nat, ∃ ext, (bodyScan cap blocks buf).buf = buf ++ ext := by
  induction blocks with
  | nil => intro buf; exact ⟨[], by simp [bodyScan]⟩
  | cons b rest ih =>
      intro buf
      cases b with
      | data v =>
          by_cases hr : cap - buf.length < v.length
          · exact ⟨[], by simp [bodyScan, hr]⟩
          · obtain ⟨ext, hext⟩ := ih (buf ++ v)
            exact ⟨v ++ ext, by simp [bodyScan, hr, hext]⟩
      | res_sl s vn re ir => simpa [bodyScan] using ih buf
      | hdr n v => simpa [bodyScan] using ih buf
      | eoh => simpa [bodyScan] using ih buf

/-- The body loop fires only res_payload events. -/
theorem bodyScan_no_end (cap : Nat) (blocks : List HtxBlk) :
    ∀ buf : List Nat, CB.res_end ∉ (bodyScan cap blocks buf).evs := by
  induction blocks with
  | nil => intro buf; simp [bodyScan]
  | cons b rest ih =>
      intro buf
      cases b with
      | data v =>
          by_cases hr : cap - buf.length < v.length
          · simp [bodyScan, hr]
          · simpa [bodyScan, hr] using ih (buf ++ v)
      | res_sl s vn re ir => simpa [bodyScan] using ih buf
      | hdr n v => simpa [bodyScan] using ih buf
      | eoh => simpa [bodyScan] using ih buf

/-- The header staging loop never touches data blocks. -/
theorem hdrScan_totalData (blocks : List HtxBlk) :
    ∀ (hdr_num : Nat) (acc : List (String × String)),
      totalData (hdrScan blocks hdr_num acc).remaining = totalData blocks := by
  induction blocks with
  | nil => intro hdr_num acc; simp [hdrScan, totalData]
  | cons b rest ih =>
      intro hdr_num acc
      cases b with
      | eoh => simp [hdrScan, totalData]
      | hdr n v => simpa [hdrScan, totalData] using ih (hdr_num + 1) (acc ++ [(n, v)])
      | res_sl s vn re ir => simpa [hdrScan, totalData] using ih hdr_num acc
      | data p => simpa [hdrScan, totalData] using ih hdr_num acc

/-- Every switch case leaves the raw body buffer capacity alone. -/
theorem switchStep_cap : ∀ st0 hc res ro, (switchStep st0 hc res ro).hc.res.cap = hc.res.cap := by
  intro st0 hc res ro
  cases st0 <;> simp only [switchStep] <;> (repeat' split) <;> rfl

/-- No switch case writes the raw body buffer past its capacity. -/
theorem switchStep_le : ∀ st0 hc res ro, hc.res.buf.length ≤ hc.res.cap →
    (switchStep st0 hc res ro).hc.res.buf.length ≤ hc.res.cap := by
  intro st0 hc res ro h
  cases st0 <;> simp only [switchStep] <;> (repeat' split) <;>
    first
      | exact h
      | exact bodyScan_le _ _ _ h

/-- Every switch case conserves body bytes: buffer plus channel payload is
unchanged. -/
theorem switchStep_conserve : ∀ st0 hc res ro,
    (switchStep st0 hc res ro).hc.res.buf.length
        + totalData (switchStep st0 hc res ro).res.blocks
      = hc.res.buf.length + totalData res.blocks := by
  intro st0 hc res ro
  cases st0 <;> simp only [switchStep] <;> (repeat' split) <;>
    first
      | rfl
      | exact bodyScan_conserve _ _ _
      | simp_all [totalData, hdrScan_totalData]

/-- No switch case fires res_end; only the end label does. -/
theorem switchStep_no_end : ∀ st0 hc res ro, CB.res_end ∉ (switchStep st0 hc res ro).evs := by
  intro st0 hc res ro
  cases st0 <;> simp only [switchStep] <;> (repeat' split) <;>
    first
      | exact bodyScan_no_end _ _ _
      | simp

/-- The more label hands the handle through untouched. -/
theorem moreLabel_hc : ∀ st0 hc res ro evs, (moreLabel st0 hc res ro evs).hc = hc := by
  intro st0 hc res ro evs
  simp only [moreLabel, endLabel]
  (repeat' split) <;> rfl

/-- The more label hands the channel through untouched. -/
theorem moreLabel_res : ∀ st0 hc res ro evs, (moreLabel st0 hc res ro evs).res = res := by
  intro st0 hc res ro evs
  simp only [moreLabel, endLabel]
  (repeat' split) <;> rfl

/-- The more label either runs the end label or returns as is. -/
theorem moreLabel_shape : ∀ st0 hc res ro evs,
    moreLabel st0 hc res ro evs = endLabel st0 hc res ro evs ∨
    moreLabel st0 hc res ro evs =
      { st0 := st0, hc := hc, res := res, req_out := ro, evs := evs,
        exit := Exit.ret_more } := by
  intro st0 hc res ro evs
  simp only [moreLabel]
  split
  · exact Or.inl rfl
  · split
    · exact Or.inl rfl
    · exact Or.inr rfl

/-- An invocation that is already in RES_END leaves the handle alone. -/
theorem ioLoop_END_hc : ∀ fuel hc res ro evs,
    (ioLoop fuel HState.RES_END hc res ro evs).hc = hc := by
  intro fuel hc res ro evs
  cases fuel <;> rfl

/-- A whole invocation leaves the raw body buffer capacity alone. -/
theorem ioLoop_cap : ∀ fuel st0 hc res ro evs,
    (ioLoop fuel st0 hc res ro evs).hc.res.cap = hc.res.cap := by
  intro fuel
  induction fuel with
  | zero => intro st0 hc res ro evs; rfl
  | succ n ih =>
      intro st0 hc res ro evs
      rw [ioLoop]
      split <;> (try simp only [endLabel, moreLabel_hc]) <;>
        first
          | rw [ih, switchStep_cap]
          | rw [switchStep_cap]

/-- A whole invocation never writes the raw body buffer past capacity. -/
theorem ioLoop_le : ∀ fuel st0 hc res ro evs, hc.res.buf.length ≤ hc.res.cap →
    (ioLoop fuel st0 hc res ro evs).hc.res.buf.length ≤ hc.res.cap := by
  intro fuel
  induction fuel with
  | zero => intro st0 hc res ro evs h; exact h
  | succ n ih =>
      intro st0 hc res ro evs h
      have h1 := switchStep_le st0 hc res ro h
      have h2 := switchStep_cap st0 hc res ro
      rw [ioLoop]
      split <;> (try simp only [endLabel, moreLabel_hc]) <;>
        first
          | exact h1
          | · have h3 := ih (switchStep st0 hc res ro).st0 (switchStep st0 hc res ro).hc
                (switchStep st0 hc res ro).res (switchStep st0 hc res ro).req_out
                (evs ++ (switchStep st0 hc res ro).evs) (by rw [h2]; exact h1)
              rw [h2] at h3
              exact h3

/-- A whole invocation conserves body bytes: what enters the raw body
buffer is exactly what leaves the channel's data blocks. -/
theorem ioLoop_conserve : ∀ fuel st0 hc res ro evs,
    (ioLoop fuel st0 hc res ro evs).hc.res.buf.length
        + totalData (ioLoop fuel st0 hc res ro evs).res.blocks
      = hc.res.buf.length + totalData res.blocks := by
  intro fuel
  induction fuel with
  | zero => intro st0 hc res ro evs; rfl
  | succ n ih =>
      intro st0 hc res ro evs
      rw [ioLoop]
      split <;> (try simp only [endLabel, moreLabel_hc, moreLabel_res]) <;>
        first
          | exact switchStep_conserve st0 hc res ro
          | exact (ih _ _ _ _ _).trans (switchStep_conserve st0 hc res ro)

/-- Membership in neither part of an append. -/
theorem not_mem_append_of (a : CB) (l1 l2 : List CB) (h1 : a ∉ l1) (h2 : a ∉ l2) :
    a ∉ l1 ++ l2 := by
  intro h
  rcases List.mem_append.mp h with h | h
  · exact h1 h
  · exact h2 h

/-- Shape of the events of one invocation: res_end appears exactly as the
final event of an invocation that ran the end label, and nowhere else. -/
theorem ioLoop_evs_shape : ∀ fuel st0 hc res ro acc,
    ((ioLoop fuel st0 hc res ro acc).exit = Exit.ended ∧
      ∃ mid, (ioLoop fuel st0 hc res ro acc).evs = acc ++ mid ++ [CB.res_end] ∧
        CB.res_end ∉ mid) ∨
    ((ioLoop fuel st0 hc res ro acc).exit ≠ Exit.ended ∧
      ∃ mid, (ioLoop fuel st0 hc res ro acc).evs = acc ++ mid ∧ CB.res_end ∉ mid) := by
  intro fuel
  induction fuel with
  | zero =>
      intro st0 hc res ro acc
      right
      refine ⟨by simp [ioLoop], ⟨[], by simp [ioLoop], by simp⟩⟩
  | succ n ih =>
      intro st0 hc res ro acc
      have hno := switchStep_no_end st0 hc res ro
      rw [ioLoop]
      split
      · rcases ih (switchStep st0 hc res ro).st0 (switchStep st0 hc res ro).hc
            (switchStep st0 hc res ro).res (switchStep st0 hc res ro).req_out
            (acc ++ (switchStep st0 hc res ro).evs) with
          ⟨he, mid, hevs, hmid⟩ | ⟨he, mid, hevs, hmid⟩
        · left
          refine ⟨he, (switchStep st0 hc res ro).evs ++ mid, ?_, ?_⟩
          · rw [hevs]; simp [List.append_assoc]
          · exact not_mem_append_of _ _ _ hno hmid
        · right
          refine ⟨he, (switchStep st0 hc res ro).evs ++ mid, ?_, ?_⟩
          · rw [hevs]; simp [List.append_assoc]
          · exact not_mem_append_of _ _ _ hno hmid
      · rcases moreLabel_shape (switchStep st0 hc res ro).st0 (switchStep st0 hc res ro).hc
            (switchStep st0 hc res ro).res (switchStep st0 hc res ro).req_out
            (acc ++ (switchStep st0 hc res ro).evs) with h | h <;> rw [h]
        · left
          refine ⟨rfl, (switchStep st0 hc res ro).evs, ?_, hno⟩
          simp [endLabel, List.append_assoc]
        · right
          refine ⟨by simp, (switchStep st0 hc res ro).evs, rfl, hno⟩
      · right
        refine ⟨by simp, (switchStep st0 hc res ro).evs, rfl, hno⟩
      · left
        refine ⟨rfl, (switchStep st0 hc res ro).evs, ?_, hno⟩
        simp [endLabel, List.append_assoc]

/-- In the body state with data present and a buffer that is not full, the
raw body buffer after the invocation is exactly what the decapsulation loop
produced, whichever way the invocation then left. -/
theorem ioLoop_body_buf : ∀ fuel hc res ro evs,
    htx_is_empty res = false →
    hc.res.buf.length ≠ hc.res.cap →
    (ioLoop (fuel + 1) HState.RES_BODY hc res ro evs).hc.res.buf
      = (bodyScan hc.res.cap res.blocks hc.res.buf).buf := by
  intro fuel hc res ro evs h1 h2
  have hb : (hc.res.buf.length == hc.res.cap) = false := beq_eq_false_iff_ne.mpr h2
  by_cases hr : (bodyScan hc.res.cap res.blocks hc.res.buf).room_blocked
  · have hs : switchStep HState.RES_BODY hc res ro =
        { st0 := HState.RES_BODY
          hc := { hc with res := { hc.res with
                    buf := (bodyScan hc.res.cap res.blocks hc.res.buf).buf } }
          res := { res with blocks := (bodyScan hc.res.cap res.blocks hc.res.buf).remaining }
          req_out := ro
          evs := (bodyScan hc.res.cap res.blocks hc.res.buf).evs
          flow := CtlFlow.room } := by
      simp [switchStep, h1, hb, hr]
    rw [ioLoop, hs]
  · by_cases he : res.eom
    · have hs : switchStep HState.RES_BODY hc res ro =
          { st0 := HState.RES_END
            hc := { hc with res := { hc.res with
                      buf := (bodyScan hc.res.cap res.blocks hc.res.buf).buf } }
            res := { res with blocks := (bodyScan hc.res.cap res.blocks hc.res.buf).remaining }
            req_out := ro
            evs := (bodyScan hc.res.cap res.blocks hc.res.buf).evs
            flow := CtlFlow.cont } := by
        simp [switchStep, h1, hb, hr, he]
      rw [ioLoop, hs]
      rw [ioLoop_END_hc]
    · have hs : switchStep HState.RES_BODY hc res ro =
          { st0 := HState.RES_BODY
            hc := { hc with res := { hc.res with
                      buf := (bodyScan hc.res.cap res.blocks hc.res.buf).buf } }
            res := { res with blocks := (bodyScan hc.res.cap res.blocks hc.res.buf).remaining }
            req_out := ro
            evs := (bodyScan hc.res.cap res.blocks hc.res.buf).evs
            flow := CtlFlow.more } := by
        simp [switchStep, h1, hb, hr, he]
      rw [ioLoop, hs]
      rw [moreLabel_hc]

/-- In the body state, a data block at the channel front that is larger
than the remaining room makes the invocation suspend through process_data
with nothing copied, nothing removed and no callback fired. -/
theorem ioLoop_body_blocked : ∀ fuel hc res ro evs (v : List Nat) rest,
    res.blocks = HtxBlk.data v :: rest →
    hc.res.buf.length < hc.res.cap →
    hc.res.cap - hc.res.buf.length < v.length →
    ioLoop (fuel + 1) HState.RES_BODY hc res ro evs =
      { st0 := HState.RES_BODY, hc := hc, res := res, req_out := ro, evs := evs,
        exit := Exit.ret_room } := by
  intro fuel hc res ro evs v rest hblocks hlen hroom
  obtain ⟨blocks, eom, shut⟩ := res
  replace hblocks : blocks = HtxBlk.data v :: rest := hblocks
  subst hblocks
  have hb : (hc.res.buf.length == hc.res.cap) = false :=
    beq_eq_false_iff_ne.mpr (Nat.ne_of_lt hlen)
  have hs : switchStep HState.RES_BODY hc
      { blocks := HtxBlk.data v :: rest, eom := eom, shut := shut } ro =
      { st0 := HState.RES_BODY, hc := hc,
        res := { blocks := HtxBlk.data v :: rest, eom := eom, shut := shut },
        req_out := ro, evs := [], flow := CtlFlow.room } := by
    simp [switchStep, htx_is_empty, hb, bodyScan, hroom]
  rw [ioLoop, hs]
  simp

/-- C1 (amended): feeding the demultiplexer the status line, two headers,
end-of-headers, two data blocks and the end-of-message marker triggers
exactly res_stline, res_headers, res_payload, res_payload, res_end, each
once with res_end last, for every fragmentation across resumption calls in
which the end-of-message marker is delivered in the same call as the last
data block (the cut vector ranges over every boundary between the blocks). -/
theorem C1_callback_sequence : ∀ a b c d e : Bool, c1Trace a b c d e false = c1Target := by
  decide

/-- C1 counterexample: under the fragmentation that delivers the
end-of-message marker in a resumption call of its own, the body state finds
the channel block-empty and suspends before looking at the flag, so the
run's callback trace stops after the two payload callbacks and res_end is
not invoked, refuting the claimed sequence for that fragmentation. -/
theorem C1_eom_alone_cex :
    c1Trace false false false false false true =
      [CB.res_stline, CB.res_headers, CB.res_payload, CB.res_payload] := by
  decide

/-- C2 (amended): within one invocation of the io handler, res_end fires
exactly once when the invocation runs the end label and never otherwise,
and only as the final event; there is no guard across invocations. -/
theorem C2_end_once_per_invocation : ∀ st0 hc res ro,
    (httpclient_applet_io_handler st0 hc res ro).evs.count CB.res_end
      = (if (httpclient_applet_io_handler st0 hc res ro).exit = Exit.ended then 1 else 0)
    ∧ CB.res_end ∉ (httpclient_applet_io_handler st0 hc res ro).evs.dropLast := by
  intro st0 hc res ro
  rcases ioLoop_evs_shape 5 st0 hc res ro [] with ⟨he, mid, hevs, hmid⟩ | ⟨he, mid, hevs, hmid⟩
  · constructor
    · rw [show httpclient_applet_io_handler st0 hc res ro = ioLoop 5 st0 hc res ro [] from rfl,
        hevs, he]
      simp [List.count_append, List.count_eq_zero.mpr hmid]
    · rw [show httpclient_applet_io_handler st0 hc res ro = ioLoop 5 st0 hc res ro [] from rfl,
        hevs]
      simp only [List.nil_append]
      rw [List.dropLast_concat]
      exact hmid
  · constructor
    · rw [show httpclient_applet_io_handler st0 hc res ro = ioLoop 5 st0 hc res ro [] from rfl,
        hevs, if_neg he]
      simp [List.count_eq_zero.mpr hmid]
    · rw [show httpclient_applet_io_handler st0 hc res ro = ioLoop 5 st0 hc res ro [] from rfl,
        hevs]
      simp only [List.nil_append]
      intro hmem
      exact hmid (List.dropLast_subset mid hmem)

/-- C2 counterexample: an invocation entered in the terminal RES_END state
fires res_end and leaves st0 at RES_END, and a later invocation in that
same state fires res_end again — re-entry is not idempotently guarded. -/
theorem C2_reentry_cex :
    c2run1.evs = [CB.res_end] ∧ c2run1.st0 = HState.RES_END ∧
      c2run2.evs = [CB.res_end] := by
  decide

/-- C3 (amended): across any invocation the bytes entering the raw body
buffer exactly match the payload leaving the channel (no loss, no
duplication); a pending data block larger than the remaining room is not
copied at all — the handler suspends with the block intact and copies the
whole block on a later resumption once room suffices. -/
theorem C3_no_loss_no_dup : ∀ st0 hc res ro,
    ((httpclient_applet_io_handler st0 hc res ro).hc.res.buf.length
        + totalData (httpclient_applet_io_handler st0 hc res ro).res.blocks
      = hc.res.buf.length + totalData res.blocks)
    ∧ (∀ (v : List Nat) rest, st0 = HState.RES_BODY →
        res.blocks = HtxBlk.data v :: rest →
        hc.res.buf.length < hc.res.cap →
        hc.res.cap - hc.res.buf.length < v.length →
        httpclient_applet_io_handler st0 hc res ro =
          { st0 := HState.RES_BODY, hc := hc, res := res, req_out := ro, evs := [],
            exit := Exit.ret_room })
    ∧ (∀ (v : List Nat) rest, st0 = HState.RES_BODY →
        res.blocks = HtxBlk.data v :: rest →
        hc.res.buf.length < hc.res.cap →
        v.length ≤ hc.res.cap - hc.res.buf.length →
        (httpclient_applet_io_handler st0 hc res ro).hc.res.buf.take
            (hc.res.buf.length + v.length)
          = hc.res.buf ++ v) := by
  intro st0 hc res ro
  refine ⟨ioLoop_conserve 5 st0 hc res ro [], ?_, ?_⟩
  · intro v rest hst hblocks hlen hroom
    subst hst
    exact ioLoop_body_blocked 4 hc res ro [] v rest hblocks hlen hroom
  · intro v rest hst hblocks hlen hroom
    subst hst
    have h1 : htx_is_empty res = false := by simp [htx_is_empty, hblocks]
    have heq : (httpclient_applet_io_handler HState.RES_BODY hc res ro).hc.res.buf
        = (bodyScan hc.res.cap res.blocks hc.res.buf).buf :=
      ioLoop_body_buf 4 hc res ro [] h1 (Nat.ne_of_lt hlen)
    have hnot : ¬ (hc.res.cap - hc.res.buf.length < v.length) := not_lt.mpr hroom
    rw [heq, hblocks]
    obtain ⟨ext, hext⟩ := bodyScan_extends hc.res.cap rest (hc.res.buf ++ v)
    simp only [bodyScan, hnot, if_neg, if_false]
    rw [hext]
    rw [show hc.res.buf.length + v.length = (hc.res.buf ++ v).length by simp]
    exact List.take_left _ _

/-- C3 counterexample: with one byte of four-byte capacity used and a
four-byte data block pending (room for three bytes, half-plus of the
block), the invocation copies nothing — the buffer still holds only the old
byte and the block is still queued — instead of the part that fits; after
the transfer gate drains, the next invocation copies the block whole. -/
theorem C3_partial_copy_cex :
    c3run1.hc.res.buf = [9] ∧ c3run1.st0 = HState.RES_BODY ∧
      c3run1.exit = Exit.ret_room ∧ c3run1.res.blocks = c3ch.blocks ∧
      c3drain.hc.res.buf = [] ∧ c3run2.hc.res.buf = [5, 6, 7, 8] ∧
      c3run2.evs = [CB.res_payload, CB.res_end] := by
  decide

/-- C4 (the code at the failing input): a headers-state invocation whose
channel holds one header block and no end-of-headers marker yet does not
suspend: it consumes the header, publishes response headers whose sentinel
slot was never written (the false flag), fires res_headers and transitions
to the body state — against the claim that headers are only published after
the end-of-headers marker is consumed. -/
theorem C4_headers_without_eoh :
    c4run.evs = [CB.res_headers] ∧ c4run.st0 = HState.RES_BODY ∧
      c4run.hc.res.hdrs = some ([("a", "b")], false) ∧ c4run.exit = Exit.ret_more := by
  decide

/-- C5 (the code at the failing input): with a configured maximum header
count of two and three header blocks before the end-of-headers marker, the
staging loop writes indices 0, 1, 2 and the sentinel at 3 — two accesses at
or past the bound — against the claim that the staging list is never
indexed out of bounds. -/
theorem C5_staging_overflow :
    hdrWritesInBounds 2 c5blocks = false ∧ (hdrScan c5blocks 0 []).writes = [0, 1, 2, 3] := by
  decide

/-- C6: for every invocation from any state, if the raw body buffer is
within its capacity before, it is within the (unchanged) capacity after:
the body state suspends rather than writing past capacity. -/
theorem C6_cap_invariant : ∀ st0 hc res ro, hc.res.buf.length ≤ hc.res.cap →
    (httpclient_applet_io_handler st0 hc res ro).hc.res.buf.length
        ≤ (httpclient_applet_io_handler st0 hc res ro).hc.res.cap
    ∧ (httpclient_applet_io_handler st0 hc res ro).hc.res.cap = hc.res.cap := by
  intro st0 hc res ro h
  have h1 := ioLoop_le 5 st0 hc res ro [] h
  have h2 := ioLoop_cap 5 st0 hc res ro []
  constructor
  · rw [show httpclient_applet_io_handler st0 hc res ro = ioLoop 5 st0 hc res ro [] from rfl, h2]
    exact h1
  · exact h2

/-- C6 witness: the capacity invariant at a concrete body-state invocation
on a fresh handle with a three-byte data block pending. -/
theorem C6_cap_invariant_witness :
    (httpclient_applet_io_handler HState.RES_BODY hc0 c6ch []).hc.res.buf.length
        ≤ (httpclient_applet_io_handler HState.RES_BODY hc0 c6ch []).hc.res.cap
    ∧ (httpclient_applet_io_handler HState.RES_BODY hc0 c6ch []).hc.res.cap = hc0.res.cap :=
  C6_cap_invariant HState.RES_BODY hc0 c6ch [] (by decide)

/-- C7 (amended): for every oracle under which the external buffer services
succeed, known method, URL with a derivable authority and supplied header
list, httpclient_req_gen returns 0 and the buffer holds, in order, the
flagged start line, a Host header synthesized once from the authority, the
supplied headers verbatim and in order, the end-of-headers marker, with the
end-of-message flag set — the synthesized Host is not suppressed when the
supplied list already contains Host; and it returns the nonzero error code
when the method is outside the known set, buffer initialization fails, the
start line cannot be appended, or host derivation fails. -/
theorem C7_request_shape :
    (∀ env url meth hdrs a,
      env.from_buf_ok = true → env.stline_ok = true → env.host_room_ok = true →
      meth ≠ HttpMeth.OTHER → authorityOf url = some a →
      httpclient_req_gen env url meth hdrs =
        { ret := 0
          items := ReqItem.req_sl reqFlags meth (http_known_methods meth) url "HTTP/1.1"
            :: ReqItem.header "Host" a
            :: (hdrs.map (fun h => ReqItem.header h.1 h.2) ++ [ReqItem.eoh])
          eom := true })
    ∧ (∀ env url meth hdrs,
      meth = HttpMeth.OTHER ∨ env.from_buf_ok = false ∨ env.stline_ok = false ∨
        authorityOf url = none →
      (httpclient_req_gen env url meth hdrs).ret = ERR_ALERT + ERR_ABORT
      ∧ (httpclient_req_gen env url meth hdrs).ret ≠ 0) := by
  constructor
  · intro env url meth hdrs a h1 h2 h3 h4 h5
    simp [httpclient_req_gen, h1, h2, h3, h4, http_update_host, h5]
  · intro env url meth hdrs h
    suffices hs : httpclient_req_gen env url meth hdrs = reqGenFail by
      rw [hs]
      exact ⟨rfl, by decide⟩
    have hu : authorityOf url = none → ∀ items room, http_update_host items url room = none := by
      intro hn items room
      simp [http_update_host, hn]
    unfold httpclient_req_gen
    split_ifs with hm hf hstl
    · rfl
    · rfl
    · rfl
    · rcases h with h | h | h | h
      · exact absurd h hm
      · simp [h] at hf
      · simp [h] at hstl
      · simp [hu h]

/-- C7 counterexample: generating a GET for http://example.com/ with a
supplied header list already containing Host succeeds with two Host headers
in the buffer — the host update runs before the supplied headers are
appended and cannot suppress the later duplicate. -/
theorem C7_host_duplicated : c7dup.ret = 0 ∧ countHost c7dup.items = 2 := by decide

/-- C8: httpclient_res_xfer copies exactly the minimum of 1024 and the
bytes buffered, appends them to the destination, returns that count, and
wakes the execution task exactly when the buffer is empty after the copy
and the execution reference is live; called on an empty buffer it returns 0,
changes nothing, and still wakes a live task, however often repeated. -/
theorem C8_xfer_contract : ∀ hc live dst,
    ((httpclient_res_xfer hc live dst).ret = min 1024 hc.res.buf.length
      ∧ (httpclient_res_xfer hc live dst).dst
          = dst ++ hc.res.buf.take (min 1024 hc.res.buf.length)
      ∧ (httpclient_res_xfer hc live dst).hc.res.buf
          = hc.res.buf.drop (min 1024 hc.res.buf.length)
      ∧ (httpclient_res_xfer hc live dst).woke
          = ((httpclient_res_xfer hc live dst).hc.res.buf.isEmpty && live))
    ∧ (hc.res.buf = [] →
        (httpclient_res_xfer hc live dst).ret = 0
        ∧ (httpclient_res_xfer hc live dst).hc = hc
        ∧ (httpclient_res_xfer hc live dst).dst = dst
        ∧ (httpclient_res_xfer hc live dst).woke = live) := by
  intro hc live dst
  constructor
  · exact ⟨rfl, rfl, rfl, rfl⟩
  · intro h
    obtain ⟨⟨st1, vs1, re1, hd1, buf1, cap1⟩, rq1⟩ := hc
    replace h : buf1 = [] := h
    subst h
    refine ⟨?_, ?_, ?_, ?_⟩ <;> simp [httpclient_res_xfer]

/-- C9 helper: under a signalled half-close, an invocation from any state
whose channel holds no blocks runs the end label in that same invocation,
with res_end as its final event. -/
theorem ioLoop_shut_empty : ∀ fuel st0 hc res ro evs,
    res.shut = true → res.blocks = [] →
    (ioLoop (fuel + 2) st0 hc res ro evs).exit = Exit.ended
    ∧ (ioLoop (fuel + 2) st0 hc res ro evs).evs.getLast? = some CB.res_end := by
  intro fuel st0 hc res ro evs h1 h2
  obtain ⟨blocks, eom, shut⟩ := res
  replace h1 : shut = true := h1
  replace h2 : blocks = ([] : List HtxBlk) := h2
  subst h1
  subst h2
  cases st0 <;> cases eom <;>
    simp [ioLoop, switchStep, moreLabel, endLabel, b_data_res, htx_is_empty, hdrScan,
      List.getLast?_concat]

/-- C9 (amended): if the io handler is invoked from any state while the
transport has signalled a half-close and the channel offers no blocks to
make progress on, it runs the end label in that same invocation and invokes
res_end last — the back-pressure suspension of the body state (data present
but no room) is the one exit that skips the half-close check. -/
theorem C9_halfclose_terminates : ∀ st0 hc res ro,
    res.shut = true → res.blocks = [] →
    (httpclient_applet_io_handler st0 hc res ro).exit = Exit.ended
    ∧ (httpclient_applet_io_handler st0 hc res ro).evs.getLast? = some CB.res_end :=
  fun st0 hc res ro h1 h2 => ioLoop_shut_empty 3 st0 hc res ro [] h1 h2

/-- C9 witness: a headers-state invocation with a shut, empty channel ends
the exchange at once with res_end fired. -/
theorem C9_halfclose_terminates_witness :
    (httpclient_applet_io_handler HState.RES_HDR hc0
        { blocks := [], eom := false, shut := true } []).exit = Exit.ended
    ∧ (httpclient_applet_io_handler HState.RES_HDR hc0
        { blocks := [], eom := false, shut := true } []).evs.getLast? = some CB.res_end :=
  C9_halfclose_terminates HState.RES_HDR hc0
    { blocks := [], eom := false, shut := true } [] rfl rfl

/-- C9 counterexample: a body-state invocation under a signalled half-close
with a pending data block larger than the remaining room returns through
process_data still in the body state with no callback — it does not
transition to End and does not invoke res_end in that invocation. -/
theorem C9_backpressure_cex :
    c9run.st0 = HState.RES_BODY ∧ c9run.evs = [] ∧ c9run.exit = Exit.ret_room := by
  decide

/-- C10: destroying a null handle is a no-op — httpclient_destroy returns
immediately and releases nothing. -/
theorem C10_destroy_null_noop : httpclient_destroy none = [] := rfl
